import Mathlib

/-!
# Verification of the ncagg planning and stitching core

A shallow embedding of the ncagg aggregation core (`ncagg/config.py`,
`ncagg/aggrelist.py`, `ncagg/aggregator.py`, `ncagg/attributes.py`) in Lean 4,
together with theorems settling the specification claims about it.

Conventions of the embedding:
* Python floats are modelled as rationals (`ℚ`); `np.round` is modelled by
  `npRound` (round half to even, numpy's convention), `np.floor`/`np.ceil` by
  `Int.floor`/`Int.ceil`.
* Python dicts keyed by strings are modelled as association lists
  (`List (String × _)`); `OrderedDict` insertion updates in place or appends.
* Exceptions are modelled by `Option` (caught-and-skip contexts) or by
  `Except AggError` (exceptions that escape `generate_aggregation_list`).
* Variables are modelled one-dimensional along a single unlimited dimension:
  every claim under scrutiny concerns index variables of this shape, so the
  multi-dimensional generality of the source (extra `other_dim_inds` slicing,
  outer sums of ramps) is not needed and the embedding records data for a
  variable as the flat list of its values along its dimension.
-/

set_option linter.unusedVariables false

abbrev DName := String

/-- A scalar-or-array attribute value as allowed by the cerberus schemas
(`oneof_type: string, number, list`). -/
inductive AVal where
  | str (s : String)
  | num (q : ℚ)
  | arr (l : List ℚ)
  deriving DecidableEq, Repr

/-- numpy `np.round`: round half to even. -/
def npRound (x : ℚ) : ℤ :=
  let f := Int.floor x
  if x - f < 1/2 then f
  else if x - f > 1/2 then f + 1
  else if f % 2 = 0 then f else f + 1

/-- `np.linspace(start, stop, num)`: `num` evenly spaced points from `start`
to `stop` inclusive (a single point is `start`). -/
def linspace (start stop : ℚ) (num : ℕ) : List ℚ :=
  if num ≤ 1 then (List.range num).map (fun _ => start)
  else (List.range num).map (fun k : ℕ => start + (k : ℚ) * ((stop - start) / ((num : ℚ) - 1)))

/-- Resolve one endpoint of a Python slice against a sequence length
(negative counts from the end, clamped into range). -/
def pySliceIdx (len : ℕ) (i : ℤ) : ℕ :=
  if i < 0 then (max 0 ((len : ℤ) + i)).toNat else min len i.toNat

/-- Python sequence slicing `l[start:stop]` with optional endpoints. -/
def pySlice {α : Type} (start stop : Option ℤ) (l : List α) : List α :=
  let s := match start with | none => 0 | some i => pySliceIdx l.length i
  let t := match stop with | none => l.length | some i => pySliceIdx l.length i
  (l.drop s).take (t - s)

/-- `timing_certainty = 0.9` from `aggregator.py` (same constant appears as
`cadence_uncert` in `aggrelist.get_coverage`). -/
def timingCertainty : ℚ := 9/10

/-- `dt_min = 1.0 / ((2.0 - timing_certainty) * cadence_hz)`. -/
def dtMin (c : ℚ) : ℚ := 1 / ((2 - timingCertainty) * c)

/-- `dt_nom = 1.0 / cadence_hz`. -/
def dtNom (c : ℚ) : ℚ := 1 / c

/-- `dt_max = 1.0 / (timing_certainty * cadence_hz)`. -/
def dtMax (c : ℚ) : ℚ := 1 / (timingCertainty * c)

/-- Python dict lookup `d.get(k)` on an association list. -/
def assocLookup {β : Type} : List (DName × β) → DName → Option β
  | [], _ => none
  | (k', v') :: rest, k => if k' = k then some v' else assocLookup rest k

/-- Replace the value stored under a key, or append the pair (Python dict
assignment, insertion-ordered as in CPython / `OrderedDict`). -/
def assocSet {β : Type} : List (DName × β) → DName → β → List (DName × β)
  | [], k, v => [(k, v)]
  | (k', v') :: rest, k, v =>
    if k' = k then (k, v) :: rest else (k', v') :: assocSet rest k v

/-! ## Config model (`ncagg/config.py`)

Entries of the three ordered sections. Python dicts validated by the cerberus
schemas are modelled as records carrying every schema field (the schema
defaults make all fields present after normalization; unknown fields such as
`is_primary` are rejected by cerberus, so they never occur on validated
entries). -/

/-- A dimension entry (`DimensionConfig` item schema). -/
structure DimCfg where
  name : DName
  size : Option ℕ
  flatten : Bool
  index_by : Option DName
  min : Option ℚ
  max : Option ℚ
  other_dim_inds : List (DName × ℤ)
  expected_cadence : List (DName × ℚ)
  deriving DecidableEq, Repr

/-- A variable entry (`VariableConfig` item schema). -/
structure VarCfg where
  name : DName
  dimensions : List DName
  datatype : String
  attributes : List (DName × AVal)
  chunksizes : Option (List ℤ)
  deriving DecidableEq, Repr

/-- A global attribute entry (`GlobalAttributeConfig` item schema). -/
structure AttrCfg where
  name : DName
  strategy : String
  value : Option AVal
  deriving DecidableEq, Repr

/-- The validated configuration (`Config`): three ordered sections. -/
structure Config where
  dims : List DimCfg
  vars : List VarCfg
  attrs : List AttrCfg
  deriving DecidableEq, Repr

/-- The serialized form (`to_dict` output / `from_dict` input): three lists
under the keys "dimensions", "variables", "attributes" (`variables` is a
reserved word in Lean, hence the shortened field names). -/
structure ConfigDesc where
  dimensions : List DimCfg
  varList : List VarCfg
  attrList : List AttrCfg
  deriving DecidableEq, Repr

/-- `DimensionConfig.__setitem__`: a dimension without `index_by` cannot carry
bounds, `other_dim_inds` or `expected_cadence`. -/
def dimNullUnindexed (e : DimCfg) : DimCfg :=
  match e.index_by with
  | none => { e with min := none, max := none, other_dim_inds := [], expected_cadence := [] }
  | some _ => e

/-- cerberus schema check for a dimension entry: `size` is nullable with `min 1`. -/
def dimSchemaOk (e : DimCfg) : Bool :=
  match e.size with
  | some n => decide (1 ≤ n)
  | none => true

/-- Validation and normalization performed when a dimension entry is inserted. -/
def dimSetItem (e : DimCfg) : Option DimCfg :=
  if dimSchemaOk (dimNullUnindexed e) then some (dimNullUnindexed e) else none

/-- `VariableConfig.__setitem__`: `chunksizes`, when given, must match
`dimensions` in length. -/
def varSetItem (e : VarCfg) : Option VarCfg :=
  match e.chunksizes with
  | some cs => if e.dimensions.length = cs.length then some e else none
  | none => some e

/-- The allowed global attribute strategies (`AttributeHandler.strategy_handlers`). -/
def strategyNames : List String :=
  ["static", "first", "last", "unique_list", "int_sum", "float_sum", "constant",
   "date_created", "time_coverage_start", "time_coverage_end", "filename", "remove"]

/-- cerberus schema check for a global attribute entry. -/
def attrSetItem (e : AttrCfg) : Option AttrCfg :=
  if strategyNames.contains e.strategy then some e else none

/-- `OrderedDict` assignment of an entry keyed by its name: replace in place
when present, append when new. -/
def dictInsert {α : Type} (getName : α → DName) : List α → α → List α
  | [], e => [e]
  | x :: xs, e => if getName x = getName e then e :: xs else x :: dictInsert getName xs e

/-- `ConfigDict.__init__`: insert entries one by one, each validated and
normalized by the section's `__setitem__`. -/
def buildConfigDict {α : Type} (getName : α → DName) (setItem : α → Option α) :
    List α → List α → Option (List α)
  | acc, [] => some acc
  | acc, e :: rest =>
    match setItem e with
    | none => none
    | some e' => buildConfigDict getName setItem (dictInsert getName acc e') rest

/-- Dict lookup of a configured dimension by name (`config.dims[n]`). -/
def Config.dim? (c : Config) (n : DName) : Option DimCfg :=
  c.dims.find? (fun d => d.name == n)

/-- Dict lookup of a configured variable by name (`config.vars[n]`). -/
def Config.var? (c : Config) (n : DName) : Option VarCfg :=
  c.vars.find? (fun v => v.name == n)

/-- Dict lookup of a configured global attribute by name (`config.attrs.get(n)`). -/
def Config.attr? (c : Config) (n : DName) : Option AttrCfg :=
  c.attrs.find? (fun a => a.name == n)

/-- All dimension names referenced by the configured variables
(`set(d for v in vars for d in v["dimensions"])`, as a list with membership). -/
def varDimNames (c : Config) : List DName := (c.vars.map VarCfg.dimensions).flatten

/-- The configured dimension names (`set(dims.keys())`). -/
def dimNames (c : Config) : List DName := c.dims.map DimCfg.name

/-- List-as-set inclusion. -/
def subsetB (l1 l2 : List DName) : Bool := l1.all (fun x => l2.contains x)

/-- The first `inter_validate` check, exactly as written in the source:
`if var_dims ⊆ dims and not dims ⊆ var_dims: raise`
`elif not var_dims ⊆ dims and dims ⊆ var_dims: raise`. -/
def dimsVarsCheck (c : Config) : Bool :=
  let a := subsetB (varDimNames c) (dimNames c)
  let b := subsetB (dimNames c) (varDimNames c)
  !(a && !b) && !(!a && b)

/-- Second `inter_validate` check: every `index_by` names a configured variable. -/
def indexByCheck (c : Config) : Bool :=
  (c.dims.filterMap DimCfg.index_by).all (fun n => c.vars.any (fun v => v.name == n))

/-- Third `inter_validate` check: each `other_dim_inds` entry names an existing
dimension (`self.dims[od]` raises `KeyError` otherwise) and, when the
dimension's size is finite, the index is below it (`np.abs(size) <= ov` raises). -/
def otherDimIndsCheck (c : Config) : Bool :=
  c.dims.all (fun d => d.other_dim_inds.all (fun p =>
    match c.dim? p.1 with
    | none => false
    | some dd =>
      match dd.size with
      | none => true
      | some s => decide (p.2 < (s : ℤ))))

/-- `Config.inter_validate` as a boolean: any failed check raises `ValueError`. -/
def interValidate (c : Config) : Bool :=
  dimsVarsCheck c && indexByCheck c && otherDimIndsCheck c

/-- `Config.from_dict`: build each ordered section, then cross-validate. -/
def Config.fromDict (d : ConfigDesc) : Option Config :=
  match buildConfigDict DimCfg.name dimSetItem [] d.dimensions with
  | none => none
  | some dims =>
    match buildConfigDict VarCfg.name varSetItem [] d.varList with
    | none => none
    | some vars =>
      match buildConfigDict AttrCfg.name attrSetItem [] d.attrList with
      | none => none
      | some attrs =>
        let c : Config := ⟨dims, vars, attrs⟩
        if interValidate c then some c else none

/-- `Config.to_dict`: each section's `to_list` emits its entries in order
(every entry already carries its name). -/
def Config.toDict (c : Config) : ConfigDesc := ⟨c.dims, c.vars, c.attrs⟩

/-! ## Per-file coverage and segments (`ncagg/aggrelist.py`)

An input file is modelled by the values of its one-dimensional variables.
Filenames are modelled by natural identifiers ordered as the filenames are;
`sorted(files_to_aggregate)` sorts by them. -/

/-- An element of `file_internal_aggregation_list`: a (possibly degenerate)
Python `slice(start, stop)` of kept records, or an internal `FillNode`
restricted to the dimension it was created for (`set_udim(udim, size, start)`). -/
inductive ISeg where
  | slc (start stop : ℕ)
  | fill (size : ℕ) (startVal : ℚ)
  deriving DecidableEq, Repr

/-- Loop state of the `get_coverage` walk: the list built so far,
`slice_start` and `in_slice`. -/
structure CovState where
  aggList : List ISeg
  sliceStart : ℕ
  inSlice : Bool
  deriving DecidableEq, Repr

/-- One iteration of the `get_coverage` walk when `cadence_hz` is configured.
`sorted` holds the index values as reordered ascending by the argsort;
`i` is the loop index. `none` models the `ZeroDivisionError` raised by the
step comparisons when `cadence_hz == 0.0`. NaN values are not representable
among the rationals, so the `isnan` cutoffs never fire in the model. -/
def covStep (c : ℚ) (sorted : List ℚ) (st : CovState) (i : ℕ) : Option CovState :=
  let ti := sorted.getD i 0
  if ti ≤ 0 then
    some (if st.inSlice then ⟨st.aggList ++ [ISeg.slc st.sliceStart i], st.sliceStart, false⟩
          else ⟨st.aggList, st.sliceStart, false⟩)
  else if st.inSlice = false then some ⟨st.aggList, i, true⟩
  else if c = 0 then none
  else
    let stepdiff := ti - sorted.getD (i - 1) 0
    if stepdiff < (1/2) / ((2 - timingCertainty) * c) then
      some ⟨st.aggList ++ [ISeg.slc st.sliceStart i], st.sliceStart, false⟩
    else if stepdiff > 2 / ((2 - timingCertainty) * c) then
      some ⟨st.aggList ++ [ISeg.slc st.sliceStart i,
              ISeg.fill (max 1 ((npRound (stepdiff * c)).natAbs - 1)) (sorted.getD (i - 1) 0)],
            i, true⟩
    else some st

/-- Run `covStep` over the loop indices. -/
def covLoopCadence (c : ℚ) (sorted : List ℚ) : CovState → List ℕ → Option CovState
  | st, [] => some st
  | st, i :: rest =>
    match covStep c sorted st i with
    | none => none
    | some st' => covLoopCadence c sorted st' rest

/-- After the walk: `if in_slice and slice_start < times.size`, append the
final slice. -/
def covFinish (sorted : List ℚ) (st : CovState) : List ISeg :=
  if st.inSlice && decide (st.sliceStart < sorted.length)
  then st.aggList ++ [ISeg.slc st.sliceStart sorted.length]
  else st.aggList

/-- One iteration of the `get_coverage` walk when `cadence_hz` is `None`:
the loop runs over `np.where(times <= 0)[0]` (raw positions) but tests the
argsorted value at that position; a positive argsorted value falls through to
the step comparison against `None` and raises `TypeError` (modelled `none`). -/
def covNoCadStep (sorted : List ℚ) (st : CovState) (i : ℕ) : Option CovState :=
  if sorted.getD i 0 ≤ 0 then
    some ⟨(if st.inSlice then st.aggList ++ [ISeg.slc st.sliceStart i] else st.aggList),
          i + 1, st.inSlice⟩
  else if st.inSlice = false then some ⟨st.aggList, i, true⟩
  else none

/-- Run `covNoCadStep` over the raw positions holding nonpositive values. -/
def covLoopNoCad (sorted : List ℚ) : CovState → List ℕ → Option CovState
  | st, [] => some st
  | st, i :: rest =>
    match covNoCadStep sorted st i with
    | none => none
    | some st' => covLoopNoCad sorted st' rest

/-- `InputFileNode.get_coverage` for one indexed dimension, as a function of
the dimension's configured cadence and the raw index-variable values.
`none` models any exception escaping the walk (all caught by
`generate_aggregation_list`, which then skips the file): an empty variable or
one with no positive value raises `IndexError` scanning the leading run. -/
def getCoverageFor (cadence : Option ℚ) (raw : List ℚ) : Option (List ISeg) :=
  let sorted := List.insertionSort (fun a b => a ≤ b) raw
  if raw.length = 0 then none
  else if sorted.all (fun t => decide (t ≤ 0)) then none
  else
    let k := sorted.countP (fun t => decide (t ≤ 0))
    match cadence with
    | some c =>
      match covLoopCadence c sorted ⟨[], k, true⟩
          (List.range' (k + 1) (sorted.length - (k + 1))) with
      | none => none
      | some st => some (covFinish sorted st)
    | none =>
      match covLoopNoCad sorted ⟨[], k, true⟩
          ((List.range raw.length).filter (fun i => decide (raw.getD i 0 ≤ 0))) with
      | none => none
      | some st => some (covFinish sorted st)

/-- An input file: an ordering identifier standing for the filename, the
values of its (one-dimensional) variables, and its dimension sizes. -/
structure FileData where
  fileId : ℕ
  vars : List (DName × List ℚ)
  dims : List (DName × ℕ)
  deriving DecidableEq, Repr

/-- The computed state of an `InputFileNode`: per indexed unlimited dimension
the argsorted index values (`sort_unlim` applied to the index variable) and
the internal aggregation list; plus the external slice overrides. -/
structure InputFileNode where
  fileVars : List (DName × List ℚ)
  fileDims : List (DName × ℕ)
  sortUnlim : List (DName × List ℚ)
  fileInternalAggList : List (DName × List ISeg)
  dimSlices : List (DName × (Option ℤ × Option ℤ))
  deriving DecidableEq, Repr

/-- The configured dimensions with `index_by` set and `flatten` unset. -/
def indexByDimsOf (cfg : Config) : List DimCfg :=
  cfg.dims.filter (fun d => d.index_by.isSome && !d.flatten)

/-- `get_coverage` over all indexed dimensions: per dimension, read the index
variable (`KeyError` when absent), argsort it and compute the coverage list. -/
def mkNodeDims (cfg : Config) (f : FileData) :
    List DimCfg → Option (List (DName × List ℚ) × List (DName × List ISeg))
  | [] => some ([], [])
  | d :: rest =>
    match d.index_by with
    | none => mkNodeDims cfg f rest
    | some ivar =>
      match assocLookup f.vars ivar with
      | none => none
      | some raw =>
        match getCoverageFor (assocLookup d.expected_cadence d.name) raw with
        | none => none
        | some cov =>
          match mkNodeDims cfg f rest with
          | none => none
          | some (sorts, covs) =>
            some ((d.name, List.insertionSort (fun a b => a ≤ b) raw) :: sorts,
                  (d.name, cov) :: covs)

/-- `InputFileNode.__init__`: compute coverage; any exception is caught by the
plan builder and the file is skipped (`none`). -/
def mkInputFileNode (cfg : Config) (f : FileData) : Option InputFileNode :=
  match mkNodeDims cfg f (indexByDimsOf cfg) with
  | none => none
  | some (sorts, covs) => some ⟨f.vars, f.dims, sorts, covs, []⟩

/-- `get_first_of_index_by`: the argsorted value at the start of the first
coverage slice (the asserts make anything else an error, hence `none`). -/
def getFirstOfIndexBy (n : InputFileNode) (u : DimCfg) : Option ℚ :=
  match assocLookup n.fileInternalAggList u.name with
  | some (ISeg.slc s _ :: _) =>
    match assocLookup n.sortUnlim u.name with
    | some vals => vals[s]?
    | none => none
  | _ => none

/-- `get_last_of_index_by`: the argsorted value at `stop - 1` of the last
coverage slice. -/
def getLastOfIndexBy (n : InputFileNode) (u : DimCfg) : Option ℚ :=
  match assocLookup n.fileInternalAggList u.name with
  | some cov =>
    match cov.getLast? with
    | some (ISeg.slc _ t) =>
      match assocLookup n.sortUnlim u.name with
      | some vals => vals[t - 1]?
      | none => none
    | _ => none
  | none => none

/-- The contribution of one coverage element to the dimension length. -/
def iSegSize (s : ISeg) : ℤ :=
  match s with
  | ISeg.slc a b => (b : ℤ) - a
  | ISeg.fill sz _ => (sz : ℤ)

/-- `get_file_internal_aggregation_size`: the configured size for a fixed
dimension, the summed coverage for an indexed unlimited dimension, the file's
own size otherwise, and one for a dimension new to the output. -/
def getFileInternalAggSize (n : InputFileNode) (dim : DimCfg) : ℤ :=
  match dim.size with
  | some s => (s : ℤ)
  | none =>
    match assocLookup n.fileInternalAggList dim.name with
    | some segs => (segs.map iSegSize).sum
    | none =>
      match assocLookup n.fileDims dim.name with
      | some s => (s : ℤ)
      | none => 1

/-- `get_dim_slice`: the stored override, else `slice(dim["size"])`
(that is, `slice(None, size)`; `size` is `None` for an unlimited dimension). -/
def getDimSlice (n : InputFileNode) (dim : DimCfg) : Option ℤ × Option ℤ :=
  match assocLookup n.dimSlices dim.name with
  | some sl => sl
  | none => (none, dim.size.map (fun s => (s : ℤ)))

/-- `get_size_along`: resolve the slice endpoints against the internal length
(negative endpoints count from the end without clamping) and subtract; in
strict mode a negative size raises (`none`). -/
def getSizeAlong (n : InputFileNode) (dim : DimCfg) (strict : Bool) : Option ℤ :=
  let sl := getDimSlice n dim
  let len := getFileInternalAggSize n dim
  let si : ℤ := match sl.1 with
    | some s => if s < 0 then len + s else s
    | none => 0
  let ei : ℤ := match sl.2 with
    | some t => if t < 0 then len + t else t
    | none => len
  if strict && decide (ei < si) then none else some (ei - si)

/-- `set_dim_slice_start`: replace the start endpoint, keeping the stop of the
stored slice (default `slice(None)`). -/
def setDimSliceStart (n : InputFileNode) (dim : DimCfg) (start : ℤ) : InputFileNode :=
  let old := (assocLookup n.dimSlices dim.name).getD (none, none)
  { n with dimSlices := assocSet n.dimSlices dim.name (some start, old.2) }

/-- `set_dim_slice_stop`: replace the stop endpoint, keeping the start of the
stored slice (default `slice(None)`). -/
def setDimSliceStop (n : InputFileNode) (dim : DimCfg) (stop : ℤ) : InputFileNode :=
  let old := (assocLookup n.dimSlices dim.name).getD (none, none)
  { n with dimSlices := assocSet n.dimSlices dim.name (old.1, some stop) }

/-- The external slice override for a dimension as held in `dim_slices`, with
the setters' `slice(None)` default (spec: "Overridable (start, stop) per
dimension, initially full"). -/
def externalSlice (n : InputFileNode) (dim : DimCfg) : Option ℤ × Option ℤ :=
  (assocLookup n.dimSlices dim.name).getD (none, none)

/-! ## Fill segments (`FillNode`) -/

/-- The state of a `FillNode`: per unlimited dimension the number of fill
records and the index value the fill starts from. -/
structure FillNodeSt where
  unlimitedDimSizes : List (DName × ℕ)
  unlimitedDimIndexStart : List (DName × ℚ)
  deriving DecidableEq, Repr

/-- A freshly constructed `FillNode(config)`. -/
def FillNodeSt.empty : FillNodeSt := ⟨[], []⟩

/-- `FillNode.set_udim(udim, size, start)`. -/
def FillNodeSt.setUdim (fn : FillNodeSt) (udim : DimCfg) (size : ℕ) (start : ℚ) : FillNodeSt :=
  ⟨assocSet fn.unlimitedDimSizes udim.name size,
   assocSet fn.unlimitedDimIndexStart udim.name start⟩

/-- `FillNode.get_size_along`: zero for an unconfigured dimension. -/
def FillNodeSt.sizeAlong (fn : FillNodeSt) (udim : DimCfg) : ℕ :=
  (assocLookup fn.unlimitedDimSizes udim.name).getD 0

/-- The `_reverse_index` dict `{d["index_by"]: d for d in dims if index_by}`:
on duplicate `index_by` values the last dimension wins. -/
def reverseIndexLookup (cfg : Config) (vname : DName) : Option DimCfg :=
  (cfg.dims.filter (fun d => decide (d.index_by = some vname))).getLast?

/-- `FillNode.data_for` for a one-dimensional variable.  When the variable
indexes an unlimited dimension and a cadence is configured for its dimension,
synthesize a ramp (`np.linspace` shifted by one cadence step and by the
configured start); otherwise the source returns a constant array of the
variable's fill value (`np.nan` for floats), which has no rational
representation and is not needed by any claim, hence `none`.  A zero cadence
would make the shift `1/0.0` infinite, also unrepresentable. -/
def fillDataFor (cfg : Config) (fn : FillNodeSt) (v : VarCfg) : Option (List ℚ) :=
  match v.dimensions with
  | [dname] =>
    match cfg.dim? dname with
    | none => none
    | some d =>
      let dimUnlim := d.size.isNone
      let dimSize : ℕ := match d.size with
        | some s => s
        | none => FillNodeSt.sizeAlong fn d
      match reverseIndexLookup cfg v.name with
      | some vi =>
        if v.dimensions.all (fun dn => (assocLookup vi.expected_cadence dn).isSome) then
          let c := (assocLookup vi.expected_cadence dname).getD 0
          if dimUnlim && decide (c = 0) then none
          else
            let stop := if c = 0 then 0 else ((dimSize : ℚ) - 1) / c
            let base := linspace 0 stop dimSize
            let base1 := if dimUnlim then base.map (fun x => x + 1 / c) else base
            let init := (assocLookup fn.unlimitedDimIndexStart vi.name).getD 0
            some (base1.map (fun x => x + init))
        else none
      | none => none
  | _ => none

/-! ## `InputFileNode.data_for` for the index variable

Step 1 applies the argsort (for the index variable itself this is exactly the
sorted value list held in `sort_unlim`), step 2 splices the internal
aggregation list (slices of the sorted data interleaved with synthesized
fills), step 3 applies the external slice. -/

/-- Step 2: splice the coverage list over the argsorted data. -/
def spliceSegs (cfg : Config) (u : DimCfg) (v : VarCfg) (prelim : List ℚ) :
    List ISeg → Option (List ℚ)
  | [] => some []
  | ISeg.slc a b :: rest =>
    match spliceSegs cfg u v prelim rest with
    | none => none
    | some tail => some ((prelim.drop a).take (b - a) ++ tail)
  | ISeg.fill sz st :: rest =>
    match fillDataFor cfg (FillNodeSt.setUdim FillNodeSt.empty u sz st) v with
    | none => none
    | some vals =>
      match spliceSegs cfg u v prelim rest with
      | none => none
      | some tail => some (vals ++ tail)

/-- `data_for` restricted to the index variable of dimension `u` (the only
variable whose raw data the embedding needs): `none` models
`VariableNotFoundException` and the unrepresentable constant-fill arrays. -/
def dataForIndexVar (cfg : Config) (n : InputFileNode) (u : DimCfg) (v : VarCfg) :
    Option (List ℚ) :=
  match assocLookup n.fileVars v.name with
  | none => none
  | some raw =>
    let prelim := match assocLookup n.sortUnlim u.name with
      | some s => s
      | none => raw
    let spliced := match assocLookup n.fileInternalAggList u.name with
      | none => some prelim
      | some segs => spliceSegs cfg u v prelim segs
    match spliced with
    | none => none
    | some vals =>
      let sl := getDimSlice n u
      some (pySlice sl.1 sl.2 vals)

/-! ## The plan builder (`generate_aggregation_list`, `ncagg/aggregator.py`) -/

/-- Exceptions escaping `generate_aggregation_list` (everything inside
`InputFileNode` construction is caught and the file skipped; these are not). -/
inductive AggError where
  | typeError
  | zeroDivision
  | attributeError
  | assertionError
  deriving DecidableEq, Repr

/-- A plan entry: a File Segment or a Fill Segment. -/
inductive Node where
  | file (f : InputFileNode)
  | fill (fn : FillNodeSt)
  deriving DecidableEq, Repr

/-- `final[-1].get_last_of_index_by(primary)`: `FillNode` has no such method
(`AttributeError`). -/
def getLastOfNode (nd : Node) (u : DimCfg) : Except AggError ℚ :=
  match nd with
  | Node.file f =>
    match getLastOfIndexBy f u with
    | some q => Except.ok q
    | none => Except.error AggError.assertionError
  | Node.fill _ => Except.error AggError.attributeError

/-- The `size` local of the gap-too-big case with a previous file:
`int(max(1, np.round((gap_between - dt_nom) * cadence_hz)))`. -/
def gapFillPrevSize (c gapBetween : ℚ) : ℕ :=
  (max 1 (npRound ((gapBetween - dtNom c) * c))).toNat

/-- The `size` local of the no-previous-file branch:
`int(max(1, np.floor((gap_between - dt_nom) * cadence_hz)))`. -/
def gapFillNoPrevSize (c gapBetween : ℚ) : ℕ :=
  (max 1 (Int.floor ((gapBetween - dtNom c) * c))).toNat

/-- The `start_from` local of the no-previous-file branch:
`next_start - ((size + 1) * dt_nom)`. -/
def gapFillNoPrevStart (c nextStart gapBetween : ℚ) : ℚ :=
  nextStart - ((gapFillNoPrevSize c gapBetween : ℚ) + 1) * dtNom c

/-- The CASE gap-too-big fill construction (`aggregator.py` lines 150-168).
With a previous file the timestamps run forward from `prev_end`; with no
previous file the fill is backdated to `next_start - (size + 1) * dt_nom`, and
the source asserts `start_from + dt_nom >= first_along_primary` (the
`import ipdb` fallback on failure is modelled as an error). -/
def gapFill (u : DimCfg) (c lo prevEnd nextStart gapBetween : ℚ) (hasPrev : Bool) :
    Except AggError Node :=
  if hasPrev then
    Except.ok (Node.fill (FillNodeSt.setUdim FillNodeSt.empty u
      (gapFillPrevSize c gapBetween) prevEnd))
  else
    if lo ≤ gapFillNoPrevStart c nextStart gapBetween + dtNom c then
      Except.ok (Node.fill (FillNodeSt.setUdim FillNodeSt.empty u
        (gapFillNoPrevSize c gapBetween) (gapFillNoPrevStart c nextStart gapBetween)))
    else Except.error AggError.assertionError

/-- The bounds test `first > next_end or last < next_start` (lines 119-120). -/
def boundsOutside (lo hi : Option ℚ) (nextStart nextEnd : ℚ) : Bool :=
  (match lo with | some l => decide (nextEnd < l) | none => false) ||
  (match hi with | some h => decide (h < nextStart) | none => false)

/-- One iteration of the builder's correction loop (lines 113-192) on the
next file node. In the gap-too-big test, `next_start - dt_nom > None` is a
`TypeError` (the left conjunct short-circuits it away when false). -/
def builderStep (cfg : Config) (primary : DimCfg) (cadence : Option ℚ) (lo hi : Option ℚ)
    (final : List Node) (next : InputFileNode) : Except AggError (List Node) :=
  match getFirstOfIndexBy next primary, getLastOfIndexBy next primary with
  | some nextStart, some nextEnd =>
    if boundsOutside lo hi nextStart nextEnd then Except.ok final
    else
      match cadence with
      | none => Except.ok (final ++ [Node.file next])
      | some c =>
        match (match final.getLast? with
               | some lastNode => Except.map some (getLastOfNode lastNode primary)
               | none =>
                 match lo with
                 | none => Except.ok none
                 | some l => Except.ok (some (l - dtMin c))) with
        | Except.error e => Except.error e
        | Except.ok none => Except.ok (final ++ [Node.file next])
        | Except.ok (some prevEnd) =>
          let gap := nextStart - prevEnd
          let withFill : Except AggError (List Node) :=
            if gap > 8/5 * dtMax c then
              match lo with
              | none => Except.error AggError.typeError
              | some l =>
                if nextStart - dtNom c > l then
                  match gapFill primary c l prevEnd nextStart gap (!final.isEmpty) with
                  | Except.error e => Except.error e
                  | Except.ok fn => Except.ok (final ++ [fn])
                else Except.ok final
            else Except.ok final
          match withFill with
          | Except.error e => Except.error e
          | Except.ok final1 =>
            let next1 := if gap < dtMin c
              then setDimSliceStart next primary (Int.ceil |(gap - dtMin c) * c|)
              else next
            let next2 := match hi with
              | some h =>
                if h < nextEnd
                then setDimSliceStop next1 primary (-(((Int.ceil ((nextEnd - h) * c)).natAbs : ℤ)))
                else next1
              | none => next1
            if 0 < (getSizeAlong next2 primary false).getD 0
            then Except.ok (final1 ++ [Node.file next2])
            else Except.ok final1
  | _, _ => Except.error AggError.assertionError

/-- The post-loop tail check (lines 196-205): when the plan ends in a File
Segment, compare `(last_along_primary - prev_end) + dt_min` against `dt_max`
and append a Fill Segment of `int(np.floor((gap_to_end - dt_min) * c))`
records starting from `prev_end`. `None - prev_end` is a `TypeError`. -/
def tailStep (u : DimCfg) (c : ℚ) (hi : Option ℚ) (final : List Node) :
    Except AggError (List Node) :=
  match final.getLast? with
  | none => Except.ok final
  | some (Node.fill _) => Except.ok final
  | some (Node.file f) =>
    match getLastOfIndexBy f u with
    | none => Except.error AggError.assertionError
    | some prevEnd =>
      match hi with
      | none => Except.error AggError.typeError
      | some h =>
        let gapToEnd := (h - prevEnd) + dtMin c
        if gapToEnd > dtMax c then
          Except.ok (final ++ [Node.fill (FillNodeSt.setUdim FillNodeSt.empty u
            (Int.floor ((gapToEnd - dtMin c) * c)).toNat prevEnd)])
        else Except.ok final

/-- The correction loop over the sorted file nodes. -/
def buildLoop (cfg : Config) (primary : DimCfg) (cadence : Option ℚ) (lo hi : Option ℚ) :
    List Node → List InputFileNode → Except AggError (List Node)
  | final, [] => Except.ok final
  | final, nf :: rest =>
    match builderStep cfg primary cadence lo hi final nf with
    | Except.error e => Except.error e
    | Except.ok final' => buildLoop cfg primary cadence lo hi final' rest

/-- The sort keys `p.get_first_of_index_by(primary)` computed by `sorted`
(the asserts inside propagate out of `generate_aggregation_list`). -/
def keyNodes (primary : DimCfg) : List InputFileNode → Except AggError (List (ℚ × InputFileNode))
  | [] => Except.ok []
  | n :: rest =>
    match getFirstOfIndexBy n primary with
    | none => Except.error AggError.assertionError
    | some q =>
      match keyNodes primary rest with
      | Except.error e => Except.error e
      | Except.ok tail => Except.ok ((q, n) :: tail)

/-- `generate_aggregation_list(config, files_to_aggregate)`.  `is_primary` is
rejected by the cerberus dimension schema, so `d.get("is_primary", False)` is
always `False` on validated entries and the primary dimension is the first
`index_by` dimension.  With `cadence_hz` absent but a bound present, the guard
on line 100 falls through and `dt_min = 1.0/((2.0 - 0.9) * None)` raises
`TypeError`; a configured cadence of `0.0` raises `ZeroDivisionError` there. -/
def generateAggregationList (cfg : Config) (files : List FileData) :
    Except AggError (List Node) :=
  let preliminary := (List.insertionSort (fun a b => a.fileId ≤ b.fileId) files).filterMap
      (mkInputFileNode cfg)
  if preliminary.isEmpty then Except.ok []
  else
    match (indexByDimsOf cfg).head? with
    | none => Except.ok (preliminary.map Node.file)
    | some primary =>
      match keyNodes primary preliminary with
      | Except.error e => Except.error e
      | Except.ok keyed =>
        let sortedPrelim := (List.insertionSort (fun a b => a.1 ≤ b.1) keyed).map Prod.snd
        let lo := primary.min
        let hi := primary.max
        let cadence := assocLookup primary.expected_cadence primary.name
        if cadence.isNone && lo.isNone && hi.isNone then
          Except.ok (sortedPrelim.map Node.file)
        else
          match cadence with
          | none => Except.error AggError.typeError
          | some c =>
            if c = 0 then Except.error AggError.zeroDivision
            else
              match buildLoop cfg primary cadence lo hi [] sortedPrelim with
              | Except.error e => Except.error e
              | Except.ok final => tailStep primary c hi final

/-! ## The evaluator's view of the index variable
(`evaluate_aggregation_list`, lines 257-285): each segment's `data_for` is
written into consecutive slices along the unlimited dimension, so the output
index variable is the concatenation of the per-segment data in plan order. -/

/-- `segment.data_for(v)` for a plan entry. -/
def nodeIndexData (cfg : Config) (u : DimCfg) (v : VarCfg) (nd : Node) : Option (List ℚ) :=
  match nd with
  | Node.file f => dataForIndexVar cfg f u v
  | Node.fill fn => fillDataFor cfg fn v

/-- The output values of the index variable over a whole plan. -/
def outputIndexValues (cfg : Config) (u : DimCfg) (v : VarCfg) : List Node → Option (List ℚ)
  | [] => some []
  | nd :: rest =>
    match nodeIndexData cfg u v nd, outputIndexValues cfg u v rest with
    | some xs, some ys => some (xs ++ ys)
    | _, _ => none

/-- End to end: plan the aggregation and read back the output values of the
primary dimension's index variable. -/
def pipelineIndexValues (cfg : Config) (files : List FileData) : Option (List ℚ) :=
  match (indexByDimsOf cfg).head? with
  | none => none
  | some primary =>
    match primary.index_by with
    | none => none
    | some ivar =>
      match cfg.var? ivar with
      | none => none
      | some v =>
        match generateAggregationList cfg files with
        | Except.error _ => none
        | Except.ok plan => outputIndexValues cfg primary v plan

/-! ## Attribute strategies (`ncagg/attributes.py`) -/

/-- `Strat.__init__` (inherited through `StratWithConfig` by `StratStatic`):
the running attribute value starts as the empty string. -/
def stratAttrInit : String := ""

/-- `StratStatic.process(attr)` computes
`self.config.attrs.get(attr, {}).get("value")` and returns it; the callers
(`AttributeHandler.process_file`) discard the return value. -/
def stratStaticProcessReturn (cfg : Config) (attrVal : DName) : Option AVal :=
  match cfg.attr? attrVal with
  | some a => a.value
  | none => none

/-- The effect of `StratStatic.process` on the stored state: `self.attr` is
never assigned, so the state is unchanged. -/
def stratStaticProcess (st : String) (attrVal : String) : String := st

/-- `Strat.finalize(nc_out)` (not overridden by `StratStatic`): return
`self.attr`. -/
def stratFinalize (st : String) : String := st

/-- Process a sequence of input attribute values with the static strategy and
finalize. -/
def stratStaticRun (inputs : List String) : String :=
  stratFinalize (inputs.foldl stratStaticProcess stratAttrInit)

/-- `AttributeHandler.finalize_file`: the attribute is written on the output
only when the finalized value is nonempty. -/
def finalizeFileWrites (val : String) : Option String :=
  if val = "" then none else some val

/-! ## Concrete configurations and files used by the theorems -/

/-- An unlimited dimension `t` indexed by `time`, no cadence, no bounds. -/
def dimPlain : DimCfg := ⟨"t", none, false, some "time", none, none, [], []⟩

/-- The index variable `time` over `t`. -/
def varTime : VarCfg := ⟨"time", ["t"], "float64", [], none⟩

/-- Config with an indexing dimension but no cadence and no bounds. -/
def cfgMono : Config := ⟨[dimPlain], [varTime], []⟩

/-- First input: `time = [1, 2]`. -/
def fileMonoA : FileData := ⟨0, [("time", [1, 2])], [("t", 2)]⟩

/-- Second input: `time = [3/2, 5/2]`, overlapping the first. -/
def fileMonoB : FileData := ⟨1, [("time", [3/2, 5/2])], [("t", 2)]⟩

/-- Dimension `t` with cadence 1 Hz and bounds `[0, 100]`. -/
def dimGap : DimCfg := ⟨"t", none, false, some "time", some 0, some 100, [], [("t", 1)]⟩

/-- Config for the leading-gap scenario. -/
def cfgGap : Config := ⟨[dimGap], [varTime], []⟩

/-- One input starting well after the lower bound: `time = [35/22, 57/22]`. -/
def fileGap : FileData := ⟨0, [("time", [35/22, 57/22])], [("t", 2)]⟩

/-- Dimension `t` with bounds `[0, 10]` but no cadence entry for itself. -/
def dimNoCad : DimCfg := ⟨"t", none, false, some "time", some 0, some 10, [], []⟩

/-- Config with bounds but unknown cadence. -/
def cfgNoCad : Config := ⟨[dimNoCad], [varTime], []⟩

/-- An in-bounds input: `time = [1, 2, 3]`. -/
def fileNoCad : FileData := ⟨0, [("time", [1, 2, 3])], [("t", 3)]⟩

/-- Dimension `t` with cadence 1 Hz and only an upper bound `10`. -/
def dimTail : DimCfg := ⟨"t", none, false, some "time", none, some 10, [], [("t", 1)]⟩

/-- Config for the tail-fill scenario. -/
def cfgTail : Config := ⟨[dimTail], [varTime], []⟩

/-- An input ending one nominal step before the upper bound: `time = [8, 9]`. -/
def fileTail : FileData := ⟨0, [("time", [8, 9])], [("t", 2)]⟩

/-- A config whose only global attribute uses the `static` strategy with a
configured value. -/
def cfgStatic : Config := ⟨[], [], [⟨"summary", "static", some (AVal.str "hello")⟩]⟩

/-- A fixed dimension `a` of size 2 (no `index_by`). -/
def dimA : DimCfg := ⟨"a", some 2, false, none, none, none, [], []⟩

/-- A fixed dimension `z` of size 3, used by no variable. -/
def dimZ : DimCfg := ⟨"z", some 3, false, none, none, none, [], []⟩

/-- A variable over `a` and the unconfigured dimension `c`. -/
def varTBad : VarCfg := ⟨"t", ["a", "c"], "float32", [], none⟩

/-- A description exhibiting both `inter_validate` violations at once: `c` is
referenced but not configured, `z` is configured but unused. -/
def descBoth : ConfigDesc := ⟨[dimA, dimZ], [varTBad], []⟩

/-- The config `descBoth` constructs. -/
def cfgBoth : Config := ⟨[dimA, dimZ], [varTBad], []⟩

/-- A variable over `a` alone. -/
def varTA : VarCfg := ⟨"t", ["a"], "float32", [], none⟩

/-- A config with only the unused-dimension violation. -/
def cfgUnused : Config := ⟨[dimA, dimZ], [varTA], []⟩

/-- An unlimited dimension `report` indexed by `time` at cadence 2 Hz. -/
def dimFill : DimCfg := ⟨"report", none, false, some "time", none, none, [], [("report", 2)]⟩

/-- The index variable `time` over `report`. -/
def varTimeFill : VarCfg := ⟨"time", ["report"], "float64", [], none⟩

/-- Config for the fill-value synthesis scenario. -/
def cfgFill : Config := ⟨[dimFill], [varTimeFill], []⟩

/-- An unlimited dimension `b` indexed by `t` with bounds and cadence. -/
def dimB : DimCfg := ⟨"b", none, false, some "t", some 1, some 5, [], [("b", 1)]⟩

/-- The index variable `t` over `b`, with a fill value attribute. -/
def varTRT : VarCfg := ⟨"t", ["b"], "float32", [("_FillValue", AVal.num 0)], none⟩

/-- A variable over `b` and `a` with chunk sizes. -/
def varXRT : VarCfg := ⟨"x", ["b", "a"], "float32", [], some [1, 2]⟩

/-- A fully populated valid config for the round-trip scenario. -/
def cfgRT : Config := ⟨[dimA, dimB], [varTRT, varXRT], [⟨"note", "static", some (AVal.str "v")⟩]⟩

/-- A file node with two records along `t` (values `[8, 9]`), as constructed
from `fileTail`. -/
def nodeTail : InputFileNode :=
  ⟨[("time", [8, 9])], [("t", 2)], [("t", [8, 9])], [("t", [ISeg.slc 0 2])], []⟩

/-- A dimension distinct from `t`, for the frame-effect theorem's witness. -/
def dimOther : DimCfg := ⟨"u", some 4, false, none, none, none, [], []⟩

/-- The file node constructed from `fileGap` (single span, values kept). -/
def nodeGap : InputFileNode :=
  ⟨[("time", [35/22, 57/22])], [("t", 2)], [("t", [35/22, 57/22])], [("t", [ISeg.slc 0 2])], []⟩

/-- The file node constructed from `fileMonoA`. -/
def nodeMonoA : InputFileNode :=
  ⟨[("time", [1, 2])], [("t", 2)], [("t", [1, 2])], [("t", [ISeg.slc 0 2])], []⟩

/-- The file node constructed from `fileMonoB`. -/
def nodeMonoB : InputFileNode :=
  ⟨[("time", [3/2, 5/2])], [("t", 2)], [("t", [3/2, 5/2])], [("t", [ISeg.slc 0 2])], []⟩

/-- The file node constructed from `fileNoCad`. -/
def nodeNoCad : InputFileNode :=
  ⟨[("time", [1, 2, 3])], [("t", 3)], [("t", [1, 2, 3])], [("t", [ISeg.slc 0 3])], []⟩

/-! ## Helper lemmas -/

theorem ceil_as_floor (a : ℚ) : ⌈a⌉ = -⌊-a⌋ := by
  rw [← Int.ceil_neg, neg_neg]

theorem assocSet_lookup_self {β : Type} (l : List (DName × β)) (k : DName) (v : β) :
    assocLookup (assocSet l k v) k = some v := by
  induction l with
  | nil => simp [assocSet, assocLookup]
  | cons hd tl ih =>
    obtain ⟨k0, v0⟩ := hd
    by_cases h : k0 = k
    · subst h; simp [assocSet, assocLookup]
    · simp [assocSet, assocLookup, h, ih]

theorem assocSet_lookup_ne {β : Type} (l : List (DName × β)) (k k' : DName) (v : β)
    (h : k' ≠ k) : assocLookup (assocSet l k v) k' = assocLookup l k' := by
  induction l with
  | nil => simp [assocSet, assocLookup, Ne.symm h]
  | cons hd tl ih =>
    obtain ⟨k0, v0⟩ := hd
    by_cases hh : k0 = k
    · subst hh
      simp [assocSet, assocLookup, Ne.symm h]
    · simp [assocSet, assocLookup, hh, ih]

/-! ## C10: frame effect of the external slice setters -/

/-- C10: for every File Segment and dimensions `d ≠ d'`,
`set_dim_slice_start(d, s)` sets only the start endpoint of `d`'s external
slice, keeping `d`'s stop endpoint and every other dimension's slice, and
`set_dim_slice_stop(d, t)` symmetrically sets only `d`'s stop endpoint. -/
theorem setDimSlice_frame_effect (n : InputFileNode) (d d' : DimCfg) (s t : ℤ)
    (hne : d'.name ≠ d.name) :
    (externalSlice (setDimSliceStart n d s) d).1 = some s ∧
    (externalSlice (setDimSliceStart n d s) d).2 = (externalSlice n d).2 ∧
    externalSlice (setDimSliceStart n d s) d' = externalSlice n d' ∧
    (externalSlice (setDimSliceStop n d t) d).2 = some t ∧
    (externalSlice (setDimSliceStop n d t) d).1 = (externalSlice n d).1 ∧
    externalSlice (setDimSliceStop n d t) d' = externalSlice n d' := by
  refine ⟨?_, ?_, ?_, ?_, ?_, ?_⟩ <;>
    simp [externalSlice, setDimSliceStart, setDimSliceStop,
      assocSet_lookup_self, assocSet_lookup_ne _ _ _ _ hne]

/-- Witness for C10 at a concrete node and dimensions. -/
theorem setDimSlice_frame_effect_witness :
    (externalSlice (setDimSliceStart nodeTail dimPlain 3) dimPlain).1 = some 3 ∧
    (externalSlice (setDimSliceStart nodeTail dimPlain 3) dimPlain).2 =
      (externalSlice nodeTail dimPlain).2 ∧
    externalSlice (setDimSliceStart nodeTail dimPlain 3) dimOther =
      externalSlice nodeTail dimOther ∧
    (externalSlice (setDimSliceStop nodeTail dimPlain (-2)) dimPlain).2 = some (-2) ∧
    (externalSlice (setDimSliceStop nodeTail dimPlain (-2)) dimPlain).1 =
      (externalSlice nodeTail dimPlain).1 ∧
    externalSlice (setDimSliceStop nodeTail dimPlain (-2)) dimOther =
      externalSlice nodeTail dimOther :=
  setDimSlice_frame_effect nodeTail dimPlain dimOther 3 (-2) (by decide)

/-! ## C6: the `static` attribute strategy -/

/-- C6 (divergence witness): with a `static` attribute configured to the value
"hello", processing any inputs leaves the strategy state empty, `finalize`
returns the empty string, and `finalize_file` therefore omits the attribute
instead of writing the configured value. -/
theorem static_strategy_finalizes_empty :
    stratStaticRun ["alpha", "beta"] = "" ∧
    finalizeFileWrites (stratStaticRun ["alpha", "beta"]) = none ∧
    stratStaticProcessReturn cfgStatic "summary" = some (AVal.str "hello") ∧
    AVal.str "hello" ≠ AVal.str "" := by
  refine ⟨rfl, rfl, rfl, by decide⟩

/-! ## C2: the internal-coverage fill threshold -/

/-- C2 (counterexample): at cadence 1 Hz a step of 2 units does not exceed
`2 × dt_max = 20/9`, yet the coverage walk closes the span and inserts an
internal Fill Segment (the code's threshold is `2 / ((2 - 0.9) × c) = 20/11`):
the claimed "exactly when the step exceeds 2 × dt_max" is false. -/
theorem coverage_fill_despite_small_step :
    getCoverageFor (some 1) [1, 3] =
      some [ISeg.slc 0 1, ISeg.fill 1 1, ISeg.slc 1 2] ∧
    ¬((3 : ℚ) - 1 > 2 * dtMax 1) := by
  constructor
  · norm_num [getCoverageFor, covLoopCadence, covStep, covFinish, npRound,
      timingCertainty, List.insertionSort, List.orderedInsert, List.range']
  · norm_num [dtMax, timingCertainty]

/-- C2 (amended): in the coverage walk with configured cadence, at a valid
(positive) value inside a span, the step closes the span and appends an
internal Fill Segment of size `max(1, |round(step × c)| - 1)` starting at the
previous value exactly when the step exceeds `2 / ((2 - u) × c) = 2 × dt_min`
(not `2 × dt_max` as claimed). -/
theorem covStep_fill_iff (c : ℚ) (sorted : List ℚ) (st : CovState) (i : ℕ)
    (hc : 0 < c) (hin : st.inSlice = true) (hval : 0 < sorted.getD i 0) :
    (covStep c sorted st i =
      some ⟨st.aggList ++ [ISeg.slc st.sliceStart i,
              ISeg.fill (max 1 ((npRound ((sorted.getD i 0 - sorted.getD (i - 1) 0) * c)).natAbs - 1))
                (sorted.getD (i - 1) 0)], i, true⟩)
    ↔ sorted.getD i 0 - sorted.getD (i - 1) 0 > 2 / ((2 - timingCertainty) * c) := by
  have hpos : 0 < (2 - timingCertainty) * c := by
    have : (0 : ℚ) < 2 - timingCertainty := by norm_num [timingCertainty]
    positivity
  simp only [covStep, if_neg (not_le.mpr hval), hin]
  rw [if_neg (by simp), if_neg hc.ne']
  constructor
  · intro h
    by_contra hgt
    by_cases h1 : sorted.getD i 0 - sorted.getD (i - 1) 0 < (1/2) / ((2 - timingCertainty) * c)
    · rw [if_pos h1] at h
      simp [CovState.mk.injEq] at h
    · rw [if_neg h1, if_neg hgt] at h
      have hst := Option.some.inj h
      have hlen := congrArg (fun s : CovState => s.aggList.length) hst
      simp only [List.length_append, List.length_cons, List.length_nil] at hlen
      omega
  · intro hgt
    have h1 : ¬(sorted.getD i 0 - sorted.getD (i - 1) 0 < (1/2) / ((2 - timingCertainty) * c)) := by
      have hlt : (1/2) / ((2 - timingCertainty) * c) < 2 / ((2 - timingCertainty) * c) := by
        rw [div_lt_div_iff_of_pos_right hpos]
        norm_num
      push_neg
      exact le_of_lt (lt_trans hlt hgt)
    rw [if_neg h1, if_pos hgt]

/-- Witness for the amended C2 at cadence 1 and values `[1, 4]`. -/
theorem covStep_fill_iff_witness :
    covStep 1 [(1 : ℚ), 4] ⟨[], 0, true⟩ 1 =
      some ⟨[ISeg.slc 0 1, ISeg.fill 2 1], 1, true⟩ := by
  have h := (covStep_fill_iff 1 [(1 : ℚ), 4] ⟨[], 0, true⟩ 1 (by norm_num) rfl
    (by norm_num)).mpr (by norm_num [timingCertainty])
  norm_num [npRound] at h
  exact h

/-! ## C8: synthesized fill values for an indexing variable -/

theorem linspace_ramp (n : ℕ) (c : ℚ) (hc : c ≠ 0) :
    linspace 0 (((n : ℚ) - 1) / c) n = (List.range n).map (fun k : ℕ => (k : ℚ) / c) := by
  unfold linspace
  by_cases h : n ≤ 1
  · rw [if_pos h]
    rcases Nat.le_one_iff_eq_zero_or_eq_one.mp h with rfl | rfl
    · simp
    · norm_num [List.range_succ]
  · rw [if_neg h]
    apply List.map_congr_left
    intro k hk
    have hn : (n : ℚ) - 1 ≠ 0 := by
      have h2 : 2 ≤ n := by omega
      have h2q : (2 : ℚ) ≤ (n : ℚ) := by exact_mod_cast h2
      intro hzero
      linarith
    field_simp
    ring

/-- C8: for a Fill Segment configured by `set_udim(U, n, s)` whose variable is
the one-dimensional `index_by` variable of the unlimited dimension `U` with a
configured positive cadence `c`, `data_for` returns exactly the `n` values
`s + 1/c, s + 2/c, …, s + n/c`. -/
theorem fillNode_progression (cfg : Config) (U : DimCfg) (v : VarCfg) (n : ℕ) (s c : ℚ)
    (hdims : v.dimensions = [U.name])
    (hfind : cfg.dim? U.name = some U)
    (hunlim : U.size = none)
    (hrev : reverseIndexLookup cfg v.name = some U)
    (hcad : assocLookup U.expected_cadence U.name = some c)
    (hc : 0 < c) :
    fillDataFor cfg (FillNodeSt.setUdim FillNodeSt.empty U n s) v =
      some ((List.range n).map (fun k : ℕ => s + ((k : ℚ) + 1) / c)) := by
  have hsz : FillNodeSt.sizeAlong (FillNodeSt.setUdim FillNodeSt.empty U n s) U = n := by
    simp [FillNodeSt.sizeAlong, FillNodeSt.setUdim, FillNodeSt.empty, assocSet_lookup_self]
  have hinit :
      assocLookup (FillNodeSt.setUdim FillNodeSt.empty U n s).unlimitedDimIndexStart U.name =
        some s := by
    simp [FillNodeSt.setUdim, FillNodeSt.empty, assocSet_lookup_self]
  simp only [fillDataFor, hdims, hfind, hrev, hunlim, hsz, hinit, Option.isNone_none,
    List.all_cons, List.all_nil, hcad, Option.isSome_some, Option.getD_some, Bool.and_true,
    if_true]
  rw [if_neg (by simp [hc.ne'])]
  rw [if_neg hc.ne']
  rw [linspace_ramp n c hc.ne']
  simp only [List.map_map, Option.some.injEq]
  apply List.map_congr_left
  intro k hk
  simp only [Function.comp_apply]
  field_simp
  ring

/-- Witness for C8: cadence 2 Hz, three fill records starting after 5. -/
theorem fillNode_progression_witness :
    fillDataFor cfgFill (FillNodeSt.setUdim FillNodeSt.empty dimFill 3 5) varTimeFill =
      some [(11 : ℚ)/2, 6, 13/2] := by
  have h := fillNode_progression cfgFill dimFill varTimeFill 3 5 2 rfl rfl rfl rfl rfl
    (by norm_num)
  rw [h]
  norm_num [List.range_succ]

/-! ## Ordered-dict lemmas shared by the config theorems -/

theorem dictInsert_mem {α : Type} (getName : α → DName) (acc : List α) (e x : α)
    (hx : x ∈ dictInsert getName acc e) : x = e ∨ x ∈ acc := by
  induction acc with
  | nil => simpa [dictInsert] using hx
  | cons hd tl ih =>
    by_cases h : getName hd = getName e
    · simp only [dictInsert, if_pos h, List.mem_cons] at hx
      rcases hx with rfl | hx
      · exact Or.inl rfl
      · exact Or.inr (List.mem_cons_of_mem _ hx)
    · simp only [dictInsert, if_neg h, List.mem_cons] at hx
      rcases hx with rfl | hx
      · exact Or.inr (List.mem_cons_self _ _)
      · rcases ih hx with h1 | h1
        · exact Or.inl h1
        · exact Or.inr (List.mem_cons_of_mem _ h1)

theorem dictInsert_names_mem {α : Type} (getName : α → DName) (acc : List α) (e : α)
    (h : getName e ∈ acc.map getName) :
    (dictInsert getName acc e).map getName = acc.map getName := by
  induction acc with
  | nil => simp at h
  | cons hd tl ih =>
    by_cases hh : getName hd = getName e
    · simp [dictInsert, hh]
    · have h' : getName e ∈ tl.map getName := by
        rcases List.mem_cons.mp h with h1 | h1
        · exact absurd h1.symm hh
        · exact h1
      simp [dictInsert, hh, ih h']

theorem dictInsert_names_notmem {α : Type} (getName : α → DName) (acc : List α) (e : α)
    (h : getName e ∉ acc.map getName) :
    dictInsert getName acc e = acc ++ [e] := by
  induction acc with
  | nil => rfl
  | cons hd tl ih =>
    have hh : getName hd ≠ getName e := by
      intro heq
      exact h (by simp [heq])
    have h' : getName e ∉ tl.map getName := by
      intro hmem
      exact h (by simp [hmem])
    simp [dictInsert, hh, ih h']

theorem dictInsert_nodup {α : Type} (getName : α → DName) (acc : List α) (e : α)
    (h : (acc.map getName).Nodup) :
    ((dictInsert getName acc e).map getName).Nodup := by
  by_cases hm : getName e ∈ acc.map getName
  · rw [dictInsert_names_mem _ _ _ hm]
    exact h
  · rw [dictInsert_names_notmem _ _ _ hm]
    simp [List.nodup_append, h, hm]

theorem buildConfigDict_inv {α : Type} (getName : α → DName) (setItem : α → Option α)
    (hIdem : ∀ e e', setItem e = some e' → setItem e' = some e') :
    ∀ (l acc r : List α), buildConfigDict getName setItem acc l = some r →
      (∀ e ∈ acc, setItem e = some e) → (acc.map getName).Nodup →
      (∀ e ∈ r, setItem e = some e) ∧ (r.map getName).Nodup := by
  intro l
  induction l with
  | nil =>
    intro acc r h hfix hnd
    obtain rfl : acc = r := by simpa [buildConfigDict] using h
    exact ⟨hfix, hnd⟩
  | cons e rest ih =>
    intro acc r h hfix hnd
    unfold buildConfigDict at h
    cases hse : setItem e with
    | none => rw [hse] at h; exact absurd h (by simp)
    | some e' =>
      rw [hse] at h
      refine ih (dictInsert getName acc e') r h ?_ ?_
      · intro x hx
        rcases dictInsert_mem getName acc e' x hx with rfl | hx'
        · exact hIdem e x hse
        · exact hfix x hx'
      · exact dictInsert_nodup getName acc e' hnd

theorem buildConfigDict_rebuild {α : Type} (getName : α → DName) (setItem : α → Option α) :
    ∀ (r acc : List α), (∀ e ∈ r, setItem e = some e) →
      (((acc ++ r).map getName)).Nodup →
      buildConfigDict getName setItem acc r = some (acc ++ r) := by
  intro r
  induction r with
  | nil => intro acc _ _; simp [buildConfigDict]
  | cons e rest ih =>
    intro acc hfix hnd
    have hse : setItem e = some e := hfix e (by simp)
    have hnot : getName e ∉ acc.map getName := by
      intro hmem
      rw [List.map_append, List.nodup_append] at hnd
      exact hnd.2.2 hmem (by simp)
    unfold buildConfigDict
    rw [hse]
    show buildConfigDict getName setItem (dictInsert getName acc e) rest = some (acc ++ e :: rest)
    rw [dictInsert_names_notmem getName acc e hnot]
    have hrec := ih (acc ++ [e]) (fun x hx => hfix x (by simp [hx])) (by simpa using hnd)
    simpa using hrec

theorem dimNullUnindexed_idem (e : DimCfg) :
    dimNullUnindexed (dimNullUnindexed e) = dimNullUnindexed e := by
  cases h : e.index_by <;> simp [dimNullUnindexed, h]

theorem dimSetItem_idem (e e' : DimCfg) (h : dimSetItem e = some e') :
    dimSetItem e' = some e' := by
  unfold dimSetItem at h
  split at h
  · rename_i hs
    obtain rfl : dimNullUnindexed e = e' := Option.some.inj h
    unfold dimSetItem
    rw [dimNullUnindexed_idem]
    rw [if_pos hs]
  · exact absurd h (by simp)

theorem varSetItem_idem (e e' : VarCfg) (h : varSetItem e = some e') :
    varSetItem e' = some e' := by
  have he : e' = e := by
    unfold varSetItem at h
    split at h
    · split at h
      · exact (Option.some.inj h).symm
      · exact absurd h (by simp)
    · exact (Option.some.inj h).symm
  subst he
  exact h

theorem attrSetItem_idem (e e' : AttrCfg) (h : attrSetItem e = some e') :
    attrSetItem e' = some e' := by
  have he : e' = e := by
    unfold attrSetItem at h
    split at h
    · exact (Option.some.inj h).symm
    · exact absurd h (by simp)
  subst he
  exact h

/-! ## C9: the Config round trip -/

/-- C9: for every valid Config `c` (one successfully constructed by
`from_dict`), `from_dict(to_dict(c))` reconstructs `c` exactly: the same
dimension, variable and attribute entries, with the same field values, in the
same order. -/
theorem config_roundtrip (d : ConfigDesc) (c : Config)
    (h : Config.fromDict d = some c) :
    Config.fromDict (Config.toDict c) = some c := by
  unfold Config.fromDict at h
  cases h1 : buildConfigDict DimCfg.name dimSetItem [] d.dimensions with
  | none => simp [h1] at h
  | some dims =>
    simp only [h1] at h
    cases h2 : buildConfigDict VarCfg.name varSetItem [] d.varList with
    | none => simp [h2] at h
    | some vars =>
      simp only [h2] at h
      cases h3 : buildConfigDict AttrCfg.name attrSetItem [] d.attrList with
      | none => simp [h3] at h
      | some attrs =>
        simp only [h3] at h
        by_cases hv : interValidate ⟨dims, vars, attrs⟩
        · rw [if_pos hv] at h
          obtain rfl : (⟨dims, vars, attrs⟩ : Config) = c := by simpa using h
          have invD := buildConfigDict_inv DimCfg.name dimSetItem dimSetItem_idem
            d.dimensions [] dims h1 (by simp) (by simp)
          have invV := buildConfigDict_inv VarCfg.name varSetItem varSetItem_idem
            d.varList [] vars h2 (by simp) (by simp)
          have invA := buildConfigDict_inv AttrCfg.name attrSetItem attrSetItem_idem
            d.attrList [] attrs h3 (by simp) (by simp)
          have rebD := buildConfigDict_rebuild DimCfg.name dimSetItem dims [] invD.1
            (by simpa using invD.2)
          have rebV := buildConfigDict_rebuild VarCfg.name varSetItem vars [] invV.1
            (by simpa using invV.2)
          have rebA := buildConfigDict_rebuild AttrCfg.name attrSetItem attrs [] invA.1
            (by simpa using invA.2)
          simp only [List.nil_append] at rebD rebV rebA
          simp only [Config.fromDict, Config.toDict]
          simp only [rebD, rebV, rebA]
          rw [if_pos hv]
        · rw [if_neg hv] at h
          exact absurd h (by simp)

/-- Witness for C9 at a concrete valid config. -/
theorem config_roundtrip_witness :
    Config.fromDict (Config.toDict cfgRT) = some cfgRT :=
  config_roundtrip (Config.toDict cfgRT) cfgRT (by decide)

/-! ## C7: the dimensions/variables consistency check -/

/-- C7 (counterexample): a description in which a variable references the
unconfigured dimension `c` AND the configured dimension `z` is unused
constructs successfully — neither branch of the source's `if`/`elif` fires
when both inclusions fail at once, so no error is raised. -/
theorem interValidate_both_violations :
    Config.fromDict descBoth = some cfgBoth ∧
    subsetB (varDimNames cfgBoth) (dimNames cfgBoth) = false ∧
    subsetB (dimNames cfgBoth) (varDimNames cfgBoth) = false := by
  refine ⟨by decide, by decide, by decide⟩

theorem fromDict_some_interValidate (d : ConfigDesc) (c : Config)
    (h : Config.fromDict d = some c) : interValidate c = true := by
  unfold Config.fromDict at h
  cases h1 : buildConfigDict DimCfg.name dimSetItem [] d.dimensions with
  | none => simp [h1] at h
  | some dims =>
    simp only [h1] at h
    cases h2 : buildConfigDict VarCfg.name varSetItem [] d.varList with
    | none => simp [h2] at h
    | some vars =>
      simp only [h2] at h
      cases h3 : buildConfigDict AttrCfg.name attrSetItem [] d.attrList with
      | none => simp [h3] at h
      | some attrs =>
        simp only [h3] at h
        by_cases hv : interValidate ⟨dims, vars, attrs⟩
        · obtain rfl : (⟨dims, vars, attrs⟩ : Config) = c := by
            rw [if_pos hv] at h
            simpa using h
          exact hv
        · rw [if_neg hv] at h
          exact absurd h (by simp)

/-- C7 (amended): `Config` construction raises exactly when one of the two
inclusions fails alone: every successfully constructed config has
`var_dims ⊆ dims` if and only if `dims ⊆ var_dims`, and a config violating
exactly one inclusion fails `inter_validate`.  (A config violating both at
once — see the counterexample — passes the check.) -/
theorem interValidate_dims_vars_characterization :
    (∀ (d : ConfigDesc) (c : Config), Config.fromDict d = some c →
      subsetB (varDimNames c) (dimNames c) = subsetB (dimNames c) (varDimNames c)) ∧
    (∀ c : Config,
      ((subsetB (varDimNames c) (dimNames c) = true ∧
        subsetB (dimNames c) (varDimNames c) = false) ∨
       (subsetB (varDimNames c) (dimNames c) = false ∧
        subsetB (dimNames c) (varDimNames c) = true)) →
      interValidate c = false) := by
  constructor
  · intro d c h
    have hv := fromDict_some_interValidate d c h
    have hdv : dimsVarsCheck c = true := by
      unfold interValidate at hv
      simp only [Bool.and_eq_true] at hv
      exact hv.1.1
    unfold dimsVarsCheck at hdv
    cases ha : subsetB (varDimNames c) (dimNames c) <;>
      cases hb : subsetB (dimNames c) (varDimNames c) <;>
      simp_all
  · intro c h
    unfold interValidate dimsVarsCheck
    rcases h with ⟨ha, hb⟩ | ⟨ha, hb⟩ <;> simp [ha, hb]

/-- Witness for the amended C7: a constructed config with matching inclusions,
and a config with only an unused dimension failing validation. -/
theorem interValidate_dims_vars_characterization_witness :
    subsetB (varDimNames cfgRT) (dimNames cfgRT) =
      subsetB (dimNames cfgRT) (varDimNames cfgRT) ∧
    interValidate cfgUnused = false := by
  constructor
  · exact interValidate_dims_vars_characterization.1 (Config.toDict cfgRT) cfgRT (by decide)
  · exact interValidate_dims_vars_characterization.2 cfgUnused (Or.inl ⟨by decide, by decide⟩)

/-! ## C3: the gap-too-big fill -/

/-- C3 (amended): when the builder's gap-too-big case fires
(`gap > 1.6 × dt_max` and `next_start - dt_nom > low`), the emitted Fill
Segment has size `max(1, round((gap - dt_nom) × cadence))` and starts from
`prev_end` when a previous plan element exists, but size
`max(1, floor((gap - dt_nom) × cadence))` (floor, not round) when none does;
in the latter case the fill is backdated so its last synthesized timestamp is
exactly `next_start - dt_nom`, its first synthesized timestamp stays strictly
after `low`, and the source's assert never fires. -/
theorem gapFill_characterization (u : DimCfg) (c lo prevEnd nextStart gapBetween : ℚ)
    (hc : 0 < c)
    (hgap : gapBetween > 8/5 * dtMax c)
    (hlow : nextStart - dtNom c > lo)
    (hrel : gapBetween = nextStart - (lo - dtMin c)) :
    gapFill u c lo prevEnd nextStart gapBetween true =
      Except.ok (Node.fill (FillNodeSt.setUdim FillNodeSt.empty u
        (gapFillPrevSize c gapBetween) prevEnd)) ∧
    gapFill u c lo prevEnd nextStart gapBetween false =
      Except.ok (Node.fill (FillNodeSt.setUdim FillNodeSt.empty u
        (gapFillNoPrevSize c gapBetween) (gapFillNoPrevStart c nextStart gapBetween))) ∧
    gapFillNoPrevStart c nextStart gapBetween +
      (gapFillNoPrevSize c gapBetween : ℚ) * dtNom c = nextStart - dtNom c ∧
    lo < gapFillNoPrevStart c nextStart gapBetween + dtNom c := by
  have hcne := hc.ne'
  have hinv : 0 < 1 / c := one_div_pos.mpr hc
  have hdtnom : dtNom c = 1 / c := rfl
  have hdtmax : dtMax c = 10 / 9 * (1 / c) := by
    unfold dtMax timingCertainty
    rw [one_div, mul_inv, ← one_div c]
    norm_num
  have hdtmin : dtMin c = 10 / 11 * (1 / c) := by
    unfold dtMin timingCertainty
    rw [show (2 : ℚ) - 9/10 = 11/10 by norm_num]
    rw [one_div, mul_inv, ← one_div c]
    norm_num
  have hgapnom : 0 < gapBetween - dtNom c := by
    rw [hdtnom]
    rw [hdtmax] at hgap
    linarith
  have hx0 : (0 : ℤ) ≤ Int.floor ((gapBetween - dtNom c) * c) :=
    Int.floor_nonneg.mpr (le_of_lt (mul_pos hgapnom hc))
  have hD : lo < gapFillNoPrevStart c nextStart gapBetween + dtNom c := by
    rcases le_or_lt (Int.floor ((gapBetween - dtNom c) * c)) 1 with hx | hx
    · have hmax : max 1 (Int.floor ((gapBetween - dtNom c) * c)) = 1 := max_eq_left hx
      unfold gapFillNoPrevStart gapFillNoPrevSize
      rw [hmax]
      push_cast
      linarith
    · have hmax : max 1 (Int.floor ((gapBetween - dtNom c) * c)) =
          Int.floor ((gapBetween - dtNom c) * c) := max_eq_right (le_of_lt hx)
      have hfl : ((Int.floor ((gapBetween - dtNom c) * c) : ℚ)) ≤ (gapBetween - dtNom c) * c :=
        Int.floor_le _
      have hmul : ((Int.floor ((gapBetween - dtNom c) * c) : ℚ)) * (1 / c) ≤
          gapBetween - dtNom c := by
        have h1 := mul_le_mul_of_nonneg_right hfl (le_of_lt hinv)
        calc ((Int.floor ((gapBetween - dtNom c) * c) : ℚ)) * (1 / c)
            ≤ (gapBetween - dtNom c) * c * (1 / c) := h1
          _ = gapBetween - dtNom c := by field_simp
      unfold gapFillNoPrevStart gapFillNoPrevSize
      rw [hmax]
      set x : ℤ := Int.floor ((gapBetween - dtNom c) * c) with hxdef
      have hxq : ((x.toNat : ℕ) : ℚ) = (x : ℚ) := by
        exact_mod_cast Int.toNat_of_nonneg hx0
      rw [hxq]
      have hexp : nextStart - ((x : ℚ) + 1) * dtNom c + dtNom c =
          nextStart - (x : ℚ) * dtNom c := by ring
      rw [hexp]
      rw [hdtnom] at hmul ⊢
      rw [hdtmin] at hrel
      linarith
  refine ⟨by simp [gapFill], ?_, ?_, hD⟩
  · unfold gapFill
    rw [if_neg (by simp)]
    rw [if_pos (le_of_lt hD)]
  · unfold gapFillNoPrevStart
    ring

/-- Witness for the amended C3 at cadence 1 Hz, `low = 0`, `next_start = 5`. -/
theorem gapFill_characterization_witness :
    gapFill dimPlain 1 0 1 5 (65/11) true =
      Except.ok (Node.fill (FillNodeSt.setUdim FillNodeSt.empty dimPlain 5 1)) ∧
    gapFill dimPlain 1 0 1 5 (65/11) false =
      Except.ok (Node.fill (FillNodeSt.setUdim FillNodeSt.empty dimPlain 4 0)) := by
  have h := gapFill_characterization dimPlain 1 0 1 5 (65/11)
    (by norm_num) (by norm_num [dtMax, timingCertainty])
    (by norm_num [dtNom]) (by norm_num [dtMin, timingCertainty])
  have h1 : gapFillPrevSize 1 (65/11) = 5 := by
    norm_num [gapFillPrevSize, npRound, dtNom]
    decide
  have h2 : gapFillNoPrevSize 1 (65/11) = 4 := by
    norm_num [gapFillNoPrevSize, dtNom]
    decide
  have h3 : gapFillNoPrevStart 1 5 (65/11) = 0 := by
    norm_num [gapFillNoPrevStart, h2, dtNom]
  have ha := h.1
  rw [h1] at ha
  have hb := h.2.1
  rw [h2, h3] at hb
  exact ⟨ha, hb⟩

/-! ## C5: the tail fill after the main loop -/

/-- C5 (amended): after the main loop, a tail Fill Segment is appended exactly
when the plan ends in a File Segment whose last value `v` satisfies
`(high - v) + dt_min > dt_max` (equivalently `v < high - (dt_max - dt_min)`,
not `v < high - dt_max` as claimed); the fill then starts from `v` with
`floor((high - v) × cadence)` records.  A plan ending in a Fill Segment, or an
empty plan, is returned unchanged. -/
theorem tailStep_characterization (u : DimCfg) (c h : ℚ) :
    (∀ (final : List Node) (f : InputFileNode) (v : ℚ),
      final.getLast? = some (Node.file f) → getLastOfIndexBy f u = some v →
      tailStep u c (some h) final =
        Except.ok (if (h - v) + dtMin c > dtMax c
          then final ++ [Node.fill (FillNodeSt.setUdim FillNodeSt.empty u
            (Int.floor ((h - v) * c)).toNat v)]
          else final)) ∧
    (∀ (final : List Node) (fn : FillNodeSt),
      final.getLast? = some (Node.fill fn) → tailStep u c (some h) final = Except.ok final) ∧
    tailStep u c (some h) [] = Except.ok [] := by
  refine ⟨?_, ?_, by simp [tailStep]⟩
  · intro final f v h1 h2
    simp only [tailStep, h1, h2]
    have harg : (h - v) + dtMin c - dtMin c = h - v := by ring
    rw [harg]
    by_cases hcond : (h - v) + dtMin c > dtMax c
    · rw [if_pos hcond, if_pos hcond]
    · rw [if_neg hcond, if_neg hcond]
  · intro final fn h1
    simp only [tailStep, h1]

/-- Witness for the amended C5 at cadence 1 Hz, bound 10, last value 9. -/
theorem tailStep_characterization_witness :
    tailStep dimTail 1 (some 10) [Node.file nodeTail] =
      Except.ok [Node.file nodeTail,
        Node.fill (FillNodeSt.setUdim FillNodeSt.empty dimTail 1 9)] := by
  have h := (tailStep_characterization dimTail 1 10).1 [Node.file nodeTail] nodeTail 9 rfl rfl
  rw [h]
  rw [if_pos (by norm_num [dtMin, dtMax, timingCertainty])]
  norm_num

/-- C5 (counterexample): running the builder on a file ending at 9 with
`high = 10` and cadence 1 Hz appends a tail Fill Segment although
`9 < high - dt_max` is false — the claimed condition of the tail fill does not
match the code's. -/
theorem tail_fill_beyond_claimed_threshold :
    (generateAggregationList cfgTail [fileTail]).toOption.bind List.getLast? =
      some (Node.fill (FillNodeSt.setUdim FillNodeSt.empty dimTail 1 9)) ∧
    ¬((9 : ℚ) < 10 - dtMax 1) := by
  have hcov : getCoverageFor (some 1) [8, 9] = some [ISeg.slc 0 2] := by
    norm_num [getCoverageFor, covLoopCadence, covStep, covFinish, timingCertainty,
      List.insertionSort, List.orderedInsert, List.range']
  have hmk : mkInputFileNode cfgTail fileTail = some nodeTail := by
    norm_num [mkInputFileNode, mkNodeDims, indexByDimsOf, assocLookup, hcov,
      cfgTail, dimTail, fileTail, varTime, nodeTail, List.insertionSort, List.orderedInsert]
  have hfirst : getFirstOfIndexBy nodeTail dimTail = some 8 := by
    norm_num [getFirstOfIndexBy, nodeTail, dimTail, assocLookup]
  have hlast : getLastOfIndexBy nodeTail dimTail = some 9 := by
    norm_num [getLastOfIndexBy, nodeTail, dimTail, assocLookup]
  have hstep : builderStep cfgTail dimTail (some 1) none (some 10) [] nodeTail =
      Except.ok [Node.file nodeTail] := by
    norm_num [builderStep, hfirst, hlast, boundsOutside]
  have htail : tailStep dimTail 1 (some 10) [Node.file nodeTail] =
      Except.ok [Node.file nodeTail, Node.fill (FillNodeSt.setUdim FillNodeSt.empty dimTail 1 9)] := by
    norm_num [tailStep, hlast, dtMin, dtMax, timingCertainty]
  have hidx : indexByDimsOf cfgTail = [dimTail] := by
    norm_num [indexByDimsOf, cfgTail, dimTail]
  have hmin : dimTail.min = none := rfl
  have hmax : dimTail.max = some 10 := rfl
  have hcad : assocLookup dimTail.expected_cadence dimTail.name = some 1 := by
    norm_num [dimTail, assocLookup]
  have hgen : generateAggregationList cfgTail [fileTail] =
      Except.ok [Node.file nodeTail,
        Node.fill (FillNodeSt.setUdim FillNodeSt.empty dimTail 1 9)] := by
    norm_num [generateAggregationList, List.insertionSort, List.orderedInsert,
      List.filterMap_cons, hmk, hidx, hmin, hmax, hcad, keyNodes, hfirst, buildLoop,
      hstep, htail]
  rw [hgen]
  norm_num [dtMax, timingCertainty, Except.toOption]

/-- C3 (counterexample): with `low = 0`, cadence 1 Hz and a single file
starting at `35/22` (gap `5/2` from `low - dt_min`), the builder emits a
leading Fill Segment of size 1 — the floor of `(gap - dt_nom) × cadence` —
although the claimed formula `max(1, round((gap - dt_nom) × cadence))`
evaluates to 2. -/
theorem gap_fill_size_uses_floor :
    (generateAggregationList cfgGap [fileGap]).toOption.bind List.head? =
      some (Node.fill (FillNodeSt.setUdim FillNodeSt.empty dimGap 1 (-(9/22)))) ∧
    (max 1 (npRound ((5/2 - dtNom 1) * 1))).toNat = 2 := by
  have hcov : getCoverageFor (some 1) [35/22, 57/22] = some [ISeg.slc 0 2] := by
    norm_num [getCoverageFor, covLoopCadence, covStep, covFinish, timingCertainty,
      List.insertionSort, List.orderedInsert, List.range']
  have hmk : mkInputFileNode cfgGap fileGap = some nodeGap := by
    norm_num [mkInputFileNode, mkNodeDims, indexByDimsOf, assocLookup, hcov,
      cfgGap, dimGap, fileGap, varTime, nodeGap, List.insertionSort, List.orderedInsert]
  have hfirst : getFirstOfIndexBy nodeGap dimGap = some (35/22) := by
    norm_num [getFirstOfIndexBy, nodeGap, dimGap, assocLookup]
  have hlast : getLastOfIndexBy nodeGap dimGap = some (57/22) := by
    norm_num [getLastOfIndexBy, nodeGap, dimGap, assocLookup]
  have hsize : getSizeAlong nodeGap dimGap false = some 2 := by
    norm_num [getSizeAlong, getDimSlice, getFileInternalAggSize, iSegSize, assocLookup,
      nodeGap, dimGap]
  have hstep : builderStep cfgGap dimGap (some 1) (some 0) (some 100) [] nodeGap =
      Except.ok [Node.fill (FillNodeSt.setUdim FillNodeSt.empty dimGap 1 (-(9/22))),
        Node.file nodeGap] := by
    norm_num [builderStep, hfirst, hlast, hsize, boundsOutside, gapFill,
      gapFillNoPrevSize, gapFillNoPrevStart, dtMin, dtNom, dtMax, timingCertainty]
  have htail : tailStep dimGap 1 (some 100)
      [Node.fill (FillNodeSt.setUdim FillNodeSt.empty dimGap 1 (-(9/22))), Node.file nodeGap] =
      Except.ok [Node.fill (FillNodeSt.setUdim FillNodeSt.empty dimGap 1 (-(9/22))),
        Node.file nodeGap,
        Node.fill (FillNodeSt.setUdim FillNodeSt.empty dimGap 97 (57/22))] := by
    norm_num [tailStep, hlast, dtMin, dtMax, timingCertainty]
    rfl
  have hidx : indexByDimsOf cfgGap = [dimGap] := by
    norm_num [indexByDimsOf, cfgGap, dimGap]
  have hmin : dimGap.min = some 0 := rfl
  have hmax : dimGap.max = some 100 := rfl
  have hcad : assocLookup dimGap.expected_cadence dimGap.name = some 1 := by
    norm_num [dimGap, assocLookup]
  have hgen : generateAggregationList cfgGap [fileGap] =
      Except.ok [Node.fill (FillNodeSt.setUdim FillNodeSt.empty dimGap 1 (-(9/22))),
        Node.file nodeGap,
        Node.fill (FillNodeSt.setUdim FillNodeSt.empty dimGap 97 (57/22))] := by
    norm_num [generateAggregationList, List.insertionSort, List.orderedInsert,
      List.filterMap_cons, hmk, hidx, hmin, hmax, hcad, keyNodes, hfirst, buildLoop,
      hstep, htail]
  rw [hgen]
  constructor
  · norm_num [Except.toOption]
  · norm_num [npRound, dtNom]
    decide

/-- C1 (divergence witness): with an indexing dimension but no configured
cadence and no bounds, two overlapping input files are planned in sorted order
with no trimming, and the aggregated output's index values
`[1, 2, 3/2, 5/2]` are not strictly increasing. -/
theorem output_not_monotonic :
    pipelineIndexValues cfgMono [fileMonoA, fileMonoB] = some [1, 2, 3/2, 5/2] ∧
    ¬ List.Chain' (· < ·) [(1 : ℚ), 2, 3/2, 5/2] := by
  have hcovA : getCoverageFor none [1, 2] = some [ISeg.slc 0 2] := by
    norm_num [getCoverageFor, covLoopNoCad, covNoCadStep, covFinish,
      List.insertionSort, List.orderedInsert, List.range_succ]
  have hcovB : getCoverageFor none [3/2, 5/2] = some [ISeg.slc 0 2] := by
    norm_num [getCoverageFor, covLoopNoCad, covNoCadStep, covFinish,
      List.insertionSort, List.orderedInsert, List.range_succ]
  have hmkA : mkInputFileNode cfgMono fileMonoA = some nodeMonoA := by
    norm_num [mkInputFileNode, mkNodeDims, indexByDimsOf, assocLookup, hcovA,
      cfgMono, dimPlain, fileMonoA, varTime, nodeMonoA, List.insertionSort,
      List.orderedInsert]
  have hmkB : mkInputFileNode cfgMono fileMonoB = some nodeMonoB := by
    norm_num [mkInputFileNode, mkNodeDims, indexByDimsOf, assocLookup, hcovB,
      cfgMono, dimPlain, fileMonoB, varTime, nodeMonoB, List.insertionSort,
      List.orderedInsert]
  have hfirstA : getFirstOfIndexBy nodeMonoA dimPlain = some 1 := by
    norm_num [getFirstOfIndexBy, nodeMonoA, dimPlain, assocLookup]
  have hfirstB : getFirstOfIndexBy nodeMonoB dimPlain = some (3/2) := by
    norm_num [getFirstOfIndexBy, nodeMonoB, dimPlain, assocLookup]
  have hidx : indexByDimsOf cfgMono = [dimPlain] := by
    norm_num [indexByDimsOf, cfgMono, dimPlain]
  have hmin : dimPlain.min = none := rfl
  have hmax : dimPlain.max = none := rfl
  have hcad : assocLookup dimPlain.expected_cadence dimPlain.name = none := rfl
  have hidA : fileMonoA.fileId = 0 := rfl
  have hidB : fileMonoB.fileId = 1 := rfl
  have hgen : generateAggregationList cfgMono [fileMonoA, fileMonoB] =
      Except.ok [Node.file nodeMonoA, Node.file nodeMonoB] := by
    norm_num [generateAggregationList, List.insertionSort, List.orderedInsert,
      List.filterMap_cons, mkInputFileNode, mkNodeDims, indexByDimsOf, getCoverageFor,
      covLoopNoCad, covNoCadStep, covFinish, assocLookup, keyNodes, getFirstOfIndexBy,
      cfgMono, dimPlain, fileMonoA, fileMonoB, varTime, nodeMonoA, nodeMonoB,
      List.range_succ, Function.comp]
  have hdataA : dataForIndexVar cfgMono nodeMonoA dimPlain varTime = some [1, 2] := by
    norm_num [dataForIndexVar, spliceSegs, assocLookup, nodeMonoA, dimPlain, varTime,
      getDimSlice, pySlice, pySliceIdx]
  have hdataB : dataForIndexVar cfgMono nodeMonoB dimPlain varTime = some [3/2, 5/2] := by
    norm_num [dataForIndexVar, spliceSegs, assocLookup, nodeMonoB, dimPlain, varTime,
      getDimSlice, pySlice, pySliceIdx]
  have hvar : Config.var? cfgMono "time" = some varTime := by
    norm_num [Config.var?, cfgMono, varTime, List.find?]
  have hiby : dimPlain.index_by = some "time" := rfl
  constructor
  · norm_num [pipelineIndexValues, hidx, hiby, hvar, hgen, outputIndexValues, nodeIndexData,
      hdataA, hdataB]
  · norm_num [List.chain'_cons]

/-- C4 (divergence witness): a config whose primary dimension has bounds but
no cadence entry makes `generate_aggregation_list` raise `TypeError` at the
`dt_min` computation instead of returning the in-bounds files. -/
theorem bounds_without_cadence_type_error :
    generateAggregationList cfgNoCad [fileNoCad] = Except.error AggError.typeError := by
  have hcov : getCoverageFor none [1, 2, 3] = some [ISeg.slc 0 3] := by
    norm_num [getCoverageFor, covLoopNoCad, covNoCadStep, covFinish,
      List.insertionSort, List.orderedInsert, List.range_succ]
  have hmk : mkInputFileNode cfgNoCad fileNoCad = some nodeNoCad := by
    norm_num [mkInputFileNode, mkNodeDims, indexByDimsOf, assocLookup, hcov,
      cfgNoCad, dimNoCad, fileNoCad, varTime, nodeNoCad, List.insertionSort,
      List.orderedInsert]
  have hfirst : getFirstOfIndexBy nodeNoCad dimNoCad = some 1 := by
    norm_num [getFirstOfIndexBy, nodeNoCad, dimNoCad, assocLookup]
  have hidx : indexByDimsOf cfgNoCad = [dimNoCad] := by
    norm_num [indexByDimsOf, cfgNoCad, dimNoCad]
  have hmin : dimNoCad.min = some 0 := rfl
  have hcad : assocLookup dimNoCad.expected_cadence dimNoCad.name = none := rfl
  norm_num [generateAggregationList, List.insertionSort, List.orderedInsert,
    List.filterMap_cons, mkInputFileNode, mkNodeDims, indexByDimsOf, getCoverageFor,
    covLoopNoCad, covNoCadStep, covFinish, assocLookup, keyNodes, getFirstOfIndexBy,
    cfgNoCad, dimNoCad, fileNoCad, varTime, nodeNoCad, List.range_succ]
